import Mathlib

/-!
# Verification of the chrono24-scraper pagination / enrichment core

Shallow embedding of the scraping pipeline of `src/server.js` (first
variant), the list walker of `src/unnamed/part_001` and the detail price
scraper of `src/unnamed/part_002`.  Browser automation (Playwright) is an
external collaborator: a fetched page or detail document is abstracted to
the data the code actually reads from it (anchor hrefs, card texts, meta
contents, parsed JSON-LD shapes, body text), and a fetch that may fail is
an `Except` / outcome value.  All other logic (id extraction, price regex
parsing, dedup merge, pagination arithmetic, retry policy, the
reconciliation gate and the concurrency limiter) is translated directly
from the JavaScript source.
-/

/-! ## Character and string helpers (JS semantics) -/

/-- The whitespace characters matched by JavaScript `\s`. -/
def isJsSpace (c : Char) : Bool :=
  c = ' ' || c = '\t' || c = '\n' || c = '\r' ||
  c = Char.ofNat 11 || c = Char.ofNat 12 ||
  c = Char.ofNat 0x00A0 || c = Char.ofNat 0x1680 ||
  (Char.ofNat 0x2000 ≤ c && c ≤ Char.ofNat 0x200A) ||
  c = Char.ofNat 0x2028 || c = Char.ofNat 0x2029 ||
  c = Char.ofNat 0x202F || c = Char.ofNat 0x205F ||
  c = Char.ofNat 0x3000 || c = Char.ofNat 0xFEFF

/-- ASCII lower-casing, the character folding used for the `/i` regex flag
on the ASCII patterns appearing in the source. -/
def lowerAscii (c : Char) : Char :=
  if 'A' ≤ c && c ≤ 'Z' then Char.ofNat (c.toNat + 32) else c

/-- `leadMatch pat l` is true when `pat` is an initial segment of `l`. -/
def leadMatch : List Char → List Char → Bool
  | [], _ => true
  | _ :: _, [] => false
  | p :: ps, c :: cs => p = c && leadMatch ps cs

/-- `subMatch pat l` is true when `pat` occurs contiguously inside `l`
(JS `String.prototype.includes`). -/
def subMatch (pat : List Char) : List Char → Bool
  | [] => pat.isEmpty
  | c :: cs => leadMatch pat (c :: cs) || subMatch pat cs

/-- Case-sensitive substring test: JS `hay.includes(pat)`. -/
def containsStr (hay pat : String) : Bool := subMatch pat.data hay.data

/-- Case-insensitive substring test: JS `/pat/i.test(hay)` for a literal
ASCII pattern `pat`. -/
def containsCI (hay pat : String) : Bool :=
  subMatch (pat.data.map lowerAscii) (hay.data.map lowerAscii)

/-- Collapse every maximal run of two or more spaces to a single space. -/
def squeezeSpaces : List Char → List Char
  | [] => []
  | [c] => [c]
  | a :: b :: rest =>
    if a = ' ' && b = ' ' then squeezeSpaces (b :: rest)
    else a :: squeezeSpaces (b :: rest)

/-- Drop spaces at both ends. -/
def trimSpaces (l : List Char) : List Char :=
  ((l.dropWhile (fun c => c = ' ')).reverse.dropWhile (fun c => c = ' ')).reverse

/-- JS `normalize`: `(s||"").replace(/ | /g," ").replace(/\s+/g," ").trim()`
(`src/server.js` line 189).  Every whitespace character becomes a plain
space, runs collapse, ends are trimmed. -/
def normalizeTxt (s : String) : String :=
  String.mk (trimSpaces (squeezeSpaces (s.data.map (fun c => if isJsSpace c then ' ' else c))))

/-- Maximal run of decimal digits at the head: returns `(run, rest)`. -/
def digitRun : List Char → List Char × List Char
  | [] => ([], [])
  | c :: cs =>
    if c.isDigit then
      let pr := digitRun cs
      (c :: pr.1, pr.2)
    else ([], c :: cs)

/-- Value of a digit string (the digits are read left to right). -/
def digitsToNat (l : List Char) : Nat :=
  l.foldl (fun a c => a * 10 + (c.toNat - 48)) 0

/-- JS `Number(String(x).replace(/[^\d]/g, ""))`: strip every non-digit,
then read the remaining digits (the empty string reads as `0`). -/
def digitsVal (s : String) : Nat := digitsToNat (s.data.filter Char.isDigit)

/-! ## The price regexes of `parseEuroFromText` (`src/server.js` 199-214)

The three patterns are hand-compiled backtracking matchers over
`List Char`, with JS leftmost-first scanning and greedy quantifiers:

  1. `/(\d{1,3}(?:[ .]\d{3})+)\s?€/`
  2. `/€\s?(\d{1,3}(?:[ ,.]\d{3})+)/`
  3. `/(\d{4,})\s?€/`
-/

/-- Match exactly `n` digits; returns the digits and the rest. -/
def takeDigitsExact : Nat → List Char → Option (List Char × List Char)
  | 0, cs => some ([], cs)
  | _ + 1, [] => none
  | n + 1, c :: cs =>
    if c.isDigit then
      match takeDigitsExact n cs with
      | some pr => some (c :: pr.1, pr.2)
      | none => none
    else none

/-- One `[sep]\d{3}` group: a separator character then three digits. -/
def sepGroup (seps : List Char) : List Char → Option (List Char × List Char)
  | [] => none
  | c :: cs =>
    if seps.contains c then
      match takeDigitsExact 3 cs with
      | some pr => some (c :: pr.1, pr.2)
      | none => none
    else none

/-- Greedy `(?:[sep]\d{3})+` followed by a tail accepted by `k`, with
backtracking over the number of groups (fuel bounds the recursion; each
group consumes at least four characters so `length + 1` fuel suffices). -/
def plusGroups (seps : List Char) (k : List Char → Bool) : Nat → List Char → Option (List Char)
  | 0, _ => none
  | fuel + 1, cs =>
    match sepGroup seps cs with
    | none => none
    | some pr =>
      match plusGroups seps k fuel pr.2 with
      | some more => some (pr.1 ++ more)
      | none => if k pr.2 then some pr.1 else none

/-- Tail `\s?€`. -/
def tailEuro : List Char → Bool
  | [] => false
  | c :: rest => c = '€' || (isJsSpace c && rest.head? = some '€')

/-- `\d{1,n}` (greedy, `n` digits tried first) followed by the groups and a
tail accepted by `k`; returns the capture. -/
def capAfterDigits (seps : List Char) (k : List Char → Bool) (n : Nat) (cs : List Char) :
    Option (List Char) :=
  match takeDigitsExact n cs with
  | none => none
  | some pr =>
    match plusGroups seps k (pr.2.length + 1) pr.2 with
    | none => none
    | some g => some (pr.1 ++ g)

/-- `(\d{1,3}(?:[sep]\d{3})+)` then tail `k`: greedy digit count 3, 2, 1. -/
def capNum (seps : List Char) (k : List Char → Bool) (cs : List Char) : Option (List Char) :=
  match capAfterDigits seps k 3 cs with
  | some r => some r
  | none =>
    match capAfterDigits seps k 2 cs with
    | some r => some r
    | none => capAfterDigits seps k 1 cs

/-- Pattern 1 anchored at the current position. -/
def p1At (cs : List Char) : Option (List Char) :=
  capNum [' ', '.'] tailEuro cs

/-- Pattern 2 anchored at the current position: literal `€`, optional
space, then the captured number. -/
def p2At : List Char → Option (List Char)
  | [] => none
  | c :: rest =>
    if c = '€' then
      match rest with
      | [] => none
      | d :: r2 =>
        if isJsSpace d then
          match capNum [' ', ',', '.'] (fun _ => true) r2 with
          | some g => some g
          | none => capNum [' ', ',', '.'] (fun _ => true) rest
        else capNum [' ', ',', '.'] (fun _ => true) rest
    else none

/-- Pattern 3 anchored at the current position: `(\d{4,})\s?€`.  A shorter
digit prefix can never help (the character after it would be a digit, which
`\s?€` rejects), so the maximal run is the only candidate. -/
def p3At (cs : List Char) : Option (List Char) :=
  let pr := digitRun cs
  if 4 ≤ pr.1.length && tailEuro pr.2 then some pr.1 else none

/-- Leftmost match: try the anchored matcher at each position, left to
right (JS `String.prototype.match` without `g`). -/
def scanFind (p : List Char → Option (List Char)) : List Char → Option (List Char)
  | [] => p []
  | c :: cs =>
    match p (c :: cs) with
    | some r => some r
    | none => scanFind p cs

/-- JS `m[1].replace(/[ .,]/g, "")`. -/
def stripSeps (l : List Char) : List Char :=
  l.filter (fun c => !(c = ' ' || c = '.' || c = ','))

/-- JS `Number` of a separator-stripped capture, `none` when the result
would not be finite (cannot happen for real captures, kept for shape). -/
def numFromCapture (l : List Char) : Option Nat :=
  if (stripSeps l).all Char.isDigit then some (digitsToNat (stripSeps l)) else none

/-- For one pattern: keep the numeric value only when it is finite and
strictly above 100 (`if (Number.isFinite(v) && v > 100) return v`). -/
def pickIfBig (m : Option (List Char)) : Option Nat :=
  match m with
  | none => none
  | some cap =>
    match numFromCapture cap with
    | none => none
    | some v => if 100 < v then some v else none

/-- `parseEuroFromText` (`src/server.js` 199-214): normalize, then try the
three patterns in order; the first one whose value passes the `> 100`
guard wins. -/
def parseEuroFromText (s : String) : Option Nat :=
  let t := (normalizeTxt s).data
  match pickIfBig (scanFind p1At t) with
  | some v => some v
  | none =>
    match pickIfBig (scanFind p2At t) with
    | some v => some v
    | none => pickIfBig (scanFind p3At t)

/-! ## Listing id extraction (`src/server.js` 192-195) -/

/-- Case-insensitive literal match, returning the rest of the input. -/
def litCI (pat : List Char) : List Char → Option (List Char)
  | cs =>
    match pat, cs with
    | [], rest => some rest
    | _ :: _, [] => none
    | p :: ps, c :: cs2 =>
      if lowerAscii p = lowerAscii c then litCI ps cs2 else none

/-- The pattern `--id(\d+)\.htm` (with the `i` flag) anchored at the
current position. -/
def idCapAt (cs : List Char) : Option (List Char) :=
  match litCI (("--id").data) cs with
  | none => none
  | some rest =>
    let pr := digitRun rest
    if pr.1.isEmpty then none
    else
      match litCI ((".htm").data) pr.2 with
      | some _ => some pr.1
      | none => none

/-- `extractListingId`: the digits of the leftmost `--id<digits>.htm`
occurrence, `none` when absent. -/
def extractListingId (url : String) : Option String :=
  (scanFind idCapAt url.data).map String.mk

example : extractListingId ("https://www.chrono24.fr/rolex--id1234.htm") = some ("1234") := by
  decide

example : extractListingId ("https://www.chrono24.fr/search?query=rolex") = none := by
  decide

example : parseEuroFromText ("5 200 €") = some 5200 := by decide

example : parseEuroFromText ("99 €") = none := by decide

example : parseEuroFromText ("1500 €") = some 1500 := by decide

example : parseEuroFromText ("€ 12.345") = some 12345 := by decide

/-! ## Data model -/

/-- Provenance tags for the price of a listing (spec §3; the full set of
string tags assigned anywhere in `src/server.js`). -/
inductive PriceSource where
  | cardMeta
  | cardDom
  | detailMeta
  | detailJsonld
  | detailDom
  | onRequest
  | missing
  | detailTimeout
  | detailError
deriving DecidableEq, Repr

/-- A `ListingRecord` as built by `scrapeOnePage` and mutated by
`enrichFromDetail` (`src/server.js` 515-539). -/
structure Item where
  id : String
  url : String
  title : String
  country : Option String
  isSponsored : Bool
  price : Option Nat
  priceSource : PriceSource
deriving DecidableEq, Repr

/-! ## Card price extraction (`src/server.js` 300-332)

A card handle is abstracted to the three things `extractPriceFromCard`
reads from it: the `content` attribute of `meta[itemprop="price"]`
(`none` when the element or the attribute is absent/empty), the card's
`innerText`, and — for each of the three price selectors in order — the
`textContent` of the first matching element (`none` when no element
matches). -/

structure Card where
  metaContent : Option String
  innerText : String
  selTexts : List (Option String)
deriving DecidableEq, Repr

/-- The meta branch: `Number(content.replace(/[^\d]/g, ""))`, accepted
when strictly positive. -/
def metaPriceVal (metaContent : Option String) : Option Nat :=
  match metaContent with
  | some c => if 0 < digitsVal c then some (digitsVal c) else none
  | none => none

/-- The on-request text test `/prix sur demande|price on request/i`. -/
def onReqText (t : String) : Bool :=
  containsCI t ("prix sur demande") || containsCI t ("price on request")

/-- The selector loop of `extractPriceFromCard`: skip absent or empty
texts, skip shipping lines and lines starting with `+`, return
`on-request` on the on-request phrase, otherwise the first text whose
`parseEuroFromText` value is truthy wins as `card-dom`. -/
def scanSel : List (Option String) → Option (Option Nat × PriceSource)
  | [] => none
  | none :: rest => scanSel rest
  | some t :: rest =>
    let t2 := normalizeTxt t
    if t2 = "" then scanSel rest
    else if containsCI t2 ("frais de port") || containsCI t2 ("shipping")
        || leadMatch (['+']) t2.data then scanSel rest
    else if onReqText t2 then some (none, PriceSource.onRequest)
    else
      match parseEuroFromText t2 with
      | some v => if v = 0 then scanSel rest else some (some v, PriceSource.cardDom)
      | none => scanSel rest

/-- `extractPriceFromCard`: meta price first, then the card-text
on-request test, then the selector loop, else `missing`. -/
def extractPriceFromCard (card : Card) : Option Nat × PriceSource :=
  match metaPriceVal card.metaContent with
  | some v => (some v, PriceSource.cardMeta)
  | none =>
    if onReqText card.innerText then (none, PriceSource.onRequest)
    else
      match scanSel card.selTexts with
      | some r => r
      | none => (none, PriceSource.missing)

/-! ## Detail page enrichment (`src/server.js` 335-419)

A detail document is abstracted to what `enrichFromDetail` reads: the
price-meta content, the parsed JSON-LD scripts (each script either fails
`JSON.parse` — then it is simply absent — or yields a list of candidate
objects; a candidate exposes `String(offers.price)` when truthy and the
`String(g.offers.price)` of each `@graph` node), the body inner text, and
(for the variant comparison) the raw text of the first matching DOM price
selector, which this function never reads. -/

structure LdObj where
  offersPrice : Option String
  graph : List (Option String)
deriving DecidableEq, Repr

structure DetailDoc where
  metaContent : Option String
  lds : List (List LdObj)
  bodyText : String
  domRaw : Option String
deriving DecidableEq, Repr

/-- Scan the `@graph` nodes of one candidate for a positive offer price. -/
def graphPrice : List (Option String) → Option Nat
  | [] => none
  | none :: rest => graphPrice rest
  | some s :: rest =>
    if 0 < digitsVal s then some (digitsVal s) else graphPrice rest

/-- One candidate: direct `offers.price` first, then its `@graph`. -/
def candPrice (c : LdObj) : Option Nat :=
  match c.offersPrice with
  | some s =>
    if 0 < digitsVal s then some (digitsVal s) else graphPrice c.graph
  | none => graphPrice c.graph

/-- All candidates of one script. -/
def candsPrice : List LdObj → Option Nat
  | [] => none
  | c :: rest =>
    match candPrice c with
    | some v => some v
    | none => candsPrice rest

/-- All JSON-LD scripts in document order. -/
def ldsPrice : List (List LdObj) → Option Nat
  | [] => none
  | s :: rest =>
    match candsPrice s with
    | some v => some v
    | none => ldsPrice rest

/-- One successful fetch of `attempt` inside `enrichFromDetail`: meta
price, then JSON-LD, then the on-request body scan, else tag `missing`
(the price field is left untouched in the `missing` branch, exactly as in
the source). -/
def applyDetail (d : DetailDoc) (it : Item) : Item :=
  match metaPriceVal d.metaContent with
  | some v => { it with price := some v, priceSource := PriceSource.detailMeta }
  | none =>
    match ldsPrice d.lds with
    | some v => { it with price := some v, priceSource := PriceSource.detailJsonld }
    | none =>
      if onReqText d.bodyText then
        { it with price := none, priceSource := PriceSource.onRequest }
      else { it with priceSource := PriceSource.missing }

/-- Outcome of one detail-page fetch: either the document the attempt got
to read, or the message of the error the attempt threw. -/
inductive FetchOutcome where
  | ok (d : DetailDoc)
  | err (msg : String)
deriving DecidableEq, Repr

/-- `/Timeout/i.test(msg)`. -/
def isTimeoutMsg (m : String) : Bool := containsCI m ("timeout")

/-- `CONFIG.detailRetryCount` (`src/server.js` 42). -/
def detailRetryCount : Nat := 1

/-- `enrichFromDetail` (`src/server.js` 402-419) as a pure function of the
outcomes of the (at most two) attempts.  The second component counts the
attempts actually made: a timeout on the first attempt with retry budget
left triggers exactly one retry after the fixed backoff; any error on the
retry ends as `detail-timeout`; a first error that is not a timeout (or no
budget) ends as `detail-error` with no retry.  No case throws. -/
def enrichFromDetail (o1 o2 : FetchOutcome) (retryBudget : Nat) (it : Item) : Item × Nat :=
  match o1 with
  | FetchOutcome.ok d => (applyDetail d it, 1)
  | FetchOutcome.err m =>
    if isTimeoutMsg m && decide (0 < retryBudget) then
      match o2 with
      | FetchOutcome.ok d => (applyDetail d it, 2)
      | FetchOutcome.err _ =>
        ({ it with price := none, priceSource := PriceSource.detailTimeout }, 2)
    else ({ it with price := none, priceSource := PriceSource.detailError }, 1)

/-- The per-item enrichment as dispatched by `scrapeChrono24`: the fetch
outcomes are a function of the item's id (each queued item navigates to
its own url). -/
def enrichItem (env : String → FetchOutcome × FetchOutcome) (it : Item) : Item :=
  (enrichFromDetail (env it.id).1 (env it.id).2 detailRetryCount it).1

/-- `src/server.js` 584-595: exactly the records whose `priceSource` is
`missing` are dispatched; each selected record is mutated in place, so the
items array is updated pointwise and nothing is added or removed. -/
def enrichAll (env : String → FetchOutcome × FetchOutcome) (items : List Item) : List Item :=
  items.map (fun it => if it.priceSource = PriceSource.missing then enrichItem env it else it)

/-! ## One list page (`src/server.js` 423-548)

A fetched list page is abstracted to what `scrapeOnePage` reads from it:
the anchors present in the DOM (href plus whether the anchor sits inside
`<main>`), the best-effort expected count read from the body text (the
expected-count reader is an external collaborator per spec §6), and the
per-anchor card extraction collaborators (title, country, sponsored flag —
external field extractors per spec §6) together with the card data the
in-scope `extractPriceFromCard` reads. -/

structure LinkInfo where
  href : String
  inMain : Bool
deriving DecidableEq, Repr

structure RawPage where
  links : List LinkInfo
  expected : Option Nat
  card : String → Card
  cardTitle : String → Option String
  cardCountry : String → Option String
  cardSponsored : String → Bool

/-- The links matched by the selector `main a[href*="--id"]`. -/
def mainLinks (pg : RawPage) : List LinkInfo :=
  pg.links.filter (fun l => l.inMain && containsStr l.href ("--id"))

/-- The links matched by the selector `a[href*="--id"]`. -/
def anyLinks (pg : RawPage) : List LinkInfo :=
  pg.links.filter (fun l => containsStr l.href ("--id"))

/-- `href.startsWith("http") ? href : "https://www.chrono24.fr" + href`. -/
def fullUrlOf (href : String) : String :=
  if leadMatch (("http").data) href.data then href
  else ("https://www.chrono24.fr") ++ href

/-- The card-construction loop (`src/server.js` 491-539): resolve the
absolute url, extract the id, skip ids already seen on this page (first
occurrence wins within a page), then build the record from the card
extractors; the title falls back to the synthesized placeholder. -/
def buildItems (pg : RawPage) : List String → List String → List Item
  | [], _ => []
  | href :: rest, seen =>
    let full := fullUrlOf href
    match extractListingId full with
    | none => buildItems pg rest seen
    | some id =>
      if seen.contains id then buildItems pg rest seen
      else
        { id := id
          url := full
          title :=
            match pg.cardTitle href with
            | some t => if t = "" then ("Listing ") ++ id else t
            | none => ("Listing ") ++ id
          country := pg.cardCountry href
          isSponsored := pg.cardSponsored href
          price := (extractPriceFromCard (pg.card href)).1
          priceSource := (extractPriceFromCard (pg.card href)).2 } ::
        buildItems pg rest (id :: seen)

/-- `PageResult` (spec §3): what one page contributes to the walk. -/
structure PageResult where
  expected : Option Nat
  items : List Item
deriving Repr

/-- Steps 3-7 of `scrapeOnePage` once a selector attached: collect the
hrefs (each link already passed the `--id` attribute filter of the
selector and the explicit `includes("--id")` filter), prefer `<main>`
links after a page-wide fallback, keep only hrefs containing `.htm`, and
build the records. -/
def buildPage (pg : RawPage) (ls : List LinkInfo) : PageResult :=
  let kept := ls.filter (fun l => containsStr l.href (".htm"))
  if kept.isEmpty then { expected := pg.expected, items := [] }
  else { expected := pg.expected, items := buildItems pg (kept.map LinkInfo.href) [] }

/-- `scrapeOnePage`: wait for the `<main>` selector; on timeout fall back
to the page-wide selector (re-filtered to `<main>` links when any
exists); when neither selector ever attaches return
`{ expectedCount: 0, items: [] }` — an empty page is not an error. -/
def scrapeOnePage (pg : RawPage) : PageResult :=
  if !(mainLinks pg).isEmpty then buildPage pg (mainLinks pg)
  else if !(anyLinks pg).isEmpty then
    let ls := anyLinks pg
    let ls2 := if ls.any LinkInfo.inMain then ls.filter LinkInfo.inMain else ls
    buildPage pg ls2
  else { expected := some 0, items := [] }

/-! ## The pagination walk and the reconciliation gate
(`src/server.js` 551-606) -/

/-- `Map.set` on the id-keyed map: replace in place when the id exists
(keeping the original position), append otherwise. -/
def upsert (l : List Item) (x : Item) : List Item :=
  if l.any (fun y => y.id = x.id) then
    l.map (fun y => if y.id = x.id then x else y)
  else l ++ [x]

/-- Merging one page's items into the accumulated map, in page order. -/
def mergeAll (acc : List Item) (xs : List Item) : List Item :=
  xs.foldl upsert acc

/-- `Math.ceil(e / pageSize)` for a positive `pageSize`. -/
def ceilDivNat (a b : Nat) : Nat := (a + b - 1) / b

/-- The page loop for pages `2..totalPages`: merge each page's items and
record the last page index walked. -/
def walkLoop (fetch : Nat → RawPage) : List Nat → List Item × Nat → List Item × Nat
  | [], st => st
  | p :: ps, st =>
    walkLoop fetch ps (mergeAll st.1 (scrapeOnePage (fetch p)).items, p)

/-- The pagination phase of `scrapeChrono24`: page 1, the page budget
`totalPages = min(maxPages, ceil(expected / pageSize))`, then the loop.
Returns the merged records, `pagesScraped` and the expected count. -/
def walkPhase (fetch : Nat → RawPage) (pageSize maxPages : Nat) :
    List Item × Nat × Option Nat :=
  let first := scrapeOnePage (fetch 1)
  let totalPages :=
    match first.expected with
    | some e => if 0 < e then min maxPages (ceilDivNat e pageSize) else 1
    | none => 1
  let st := walkLoop fetch (List.range' 2 (totalPages - 1)) (mergeAll [] first.items, 1)
  (st.1, st.2, first.expected)

/-- The diagnostic meta carried by the count-mismatch error
(`src/server.js` 599). -/
structure GateMeta where
  expectedCount : Nat
  got : Nat
  pagesScraped : Nat
  pageSize : Nat
  sample : List Item
deriving DecidableEq, Repr

/-- The successful result object (`src/server.js` 603). -/
structure ScrapeOk where
  expected : Option Nat
  count : Nat
  pageSize : Nat
  pagesScraped : Nat
  items : List Item
deriving DecidableEq, Repr

/-- The reconciliation gate (`src/server.js` 597-605): when the expected
count is a positive number and the deduplicated count differs, throw the
count-mismatch error with its meta; otherwise return the result object. -/
def gatePhase (expected : Option Nat) (items : List Item) (pagesScraped pageSize : Nat) :
    Except GateMeta ScrapeOk :=
  match expected with
  | some e =>
    if 0 < e && items.length ≠ e then
      Except.error
        { expectedCount := e, got := items.length, pagesScraped := pagesScraped,
          pageSize := pageSize, sample := items.take 5 }
    else
      Except.ok
        { expected := some e, count := items.length, pageSize := pageSize,
          pagesScraped := pagesScraped, items := items }
  | none =>
    Except.ok
      { expected := none, count := items.length, pageSize := pageSize,
        pagesScraped := pagesScraped, items := items }

/-- `Number(opts.x || default)` for the two numeric options. -/
def resolveOpt (dflt n : Nat) : Nat := if n = 0 then dflt else n

/-- `scrapeChrono24` (`src/server.js` 551-606, cache layer aside): walk,
enrich the missing-price records in place, then the gate.  The enrichment
environment gives, per listing id, the outcomes of the two possible
detail-fetch attempts. -/
def scrapeChrono24Model (fetch : Nat → RawPage) (env : String → FetchOutcome × FetchOutcome)
    (pageSizeOpt maxPagesOpt : Nat) : Except GateMeta ScrapeOk :=
  let pageSize := resolveOpt 120 pageSizeOpt
  let maxPages := resolveOpt 50 maxPagesOpt
  let w := walkPhase fetch pageSize maxPages
  gatePhase w.2.2 (enrichAll env w.1) w.2.1 pageSize

/-- The records visible to the caller: the result items on success, the
diagnostic sample on the hard failure. -/
def resultItems : Except GateMeta ScrapeOk → List Item
  | Except.ok r => r.items
  | Except.error m => m.sample

/-! ## The list walker variant (`src/unnamed/part_001` 172-249)

`scrapeListPage` differs from `scrapeOnePage` in two ways that matter
here: records carry only id/url/title (the title comes from the anchor
text), and only the wait for the primary `<main>` selector is guarded —
when the page-wide fallback selector never attaches either, the
`waitForSelector` rejection propagates out of the function. -/

structure LinkT where
  href : String
  inMain : Bool
  text : String
deriving DecidableEq, Repr

structure RawListPage where
  links : List LinkT
  expected : Option Nat
deriving DecidableEq, Repr

structure LItem where
  id : String
  url : String
  title : String
deriving DecidableEq, Repr

structure ListPageOut where
  expected : Option Nat
  items : List LItem
deriving DecidableEq, Repr

/-- The record loop of `scrapeListPage` (part_001 204-214): absolute url,
id extraction, first occurrence wins within the page, title from the
anchor text when it is truthy and longer than 3 characters. -/
def buildL : List LinkT → List String → List LItem
  | [], _ => []
  | l :: rest, seen =>
    let full := fullUrlOf l.href
    match extractListingId full with
    | none => buildL rest seen
    | some id =>
      if seen.contains id then buildL rest seen
      else
        { id := id, url := full,
          title := if l.text ≠ "" && 3 < l.text.length then l.text else ("Listing ") ++ id } ::
        buildL rest (id :: seen)

/-- `scrapeListPage` (part_001 172-219).  The second `waitForSelector`
call is not wrapped in a try/catch: a page where neither selector ever
attaches makes the function reject with the selector-timeout error. -/
def scrapeListPage (pg : RawListPage) : Except String ListPageOut :=
  let mains := pg.links.filter (fun l => l.inMain && containsStr l.href ("--id"))
  let anys := pg.links.filter (fun l => containsStr l.href ("--id"))
  if !mains.isEmpty then
    Except.ok
      { expected := pg.expected,
        items := buildL ((mains.filter (fun l => containsStr l.href (".htm")))) [] }
  else if !anys.isEmpty then
    let kept := if anys.any LinkT.inMain then anys.filter LinkT.inMain else anys
    Except.ok
      { expected := pg.expected,
        items := buildL ((kept.filter (fun l => containsStr l.href (".htm")))) [] }
  else Except.error ("page.waitForSelector: Timeout exceeded")

/-- `Map.set` merge for the walker variant (last write wins per id). -/
def upsertL (l : List LItem) (x : LItem) : List LItem :=
  if l.any (fun y => y.id = x.id) then
    l.map (fun y => if y.id = x.id then x else y)
  else l ++ [x]

/-- Merging one page of the walker variant. -/
def mergeL (acc : List LItem) (xs : List LItem) : List LItem :=
  xs.foldl upsertL acc

/-- The `ScrapeResult` of `scrapeList` (part_001 237-248).  The wall-clock
`scrapedAt` timestamp is outside the embedding; the JS field named
`partial` is modelled as `partialFlag`. -/
structure ListResult where
  expectedCount : Option Nat
  count : Nat
  pageSize : Nat
  pagesScraped : Nat
  totalPages : Nat
  maxPages : Nat
  partialFlag : Bool
  warning : Option String
  items : List LItem
deriving DecidableEq, Repr

/-- The page loop of `scrapeList`; any page rejection propagates. -/
def listLoop (fetch : Nat → RawListPage) : List Nat → List LItem × Nat →
    Except String (List LItem × Nat)
  | [], st => Except.ok st
  | p :: ps, st =>
    match scrapeListPage (fetch p) with
    | Except.error e => Except.error e
    | Except.ok out => listLoop fetch ps (mergeL st.1 out.items, p)

/-- `scrapeList` (part_001 221-249): page 1 gives the expected count,
`computedTotalPages = ceil(expected / pageSize)` (uncapped), the loop runs
to `min(maxPages, computedTotalPages)`, and the result reports
`partial = pagesScraped !== computedTotalPages` with the warning string
populated exactly in that case. -/
def scrapeList (fetch : Nat → RawListPage) (pageSize maxPages : Nat) :
    Except String ListResult :=
  match scrapeListPage (fetch 1) with
  | Except.error e => Except.error e
  | Except.ok first =>
    let computed :=
      match first.expected with
      | some e => if 0 < e then ceilDivNat e pageSize else 1
      | none => 1
    let toScrape := min maxPages computed
    match listLoop fetch (List.range' 2 (toScrape - 1)) (mergeL [] first.items, 1) with
    | Except.error e => Except.error e
    | Except.ok st =>
      Except.ok
        { expectedCount := first.expected
          count := st.1.length
          pageSize := pageSize
          pagesScraped := st.2
          totalPages := computed
          maxPages := maxPages
          partialFlag := st.2 ≠ computed
          warning :=
            if st.2 ≠ computed then
              some (("Partial: ") ++ toString st.2 ++ ("/") ++ toString computed ++ (" pages"))
            else none
          items := st.1 }

/-! ## The detail price scraper variant (`src/unnamed/part_002` 305-431)

`scrapePriceForListing` reads, in this order: the JSON-LD scripts (with
`offers` arrays, `lowPrice` fallback, a direct `price` field, and
`@graph`), then three meta selectors, then four DOM fallback selectors
(`data-price` attribute or text content, scanned until one has a digit).
It has no on-request body scan; a fetch error returns the `error` tag. -/

structure OfferObj where
  price : Option String
  lowPrice : Option String
deriving DecidableEq, Repr

structure LdObj2 where
  offers : List OfferObj
  price : Option String
deriving DecidableEq, Repr

structure Ld2Cand where
  obj : LdObj2
  graph : List LdObj2
deriving DecidableEq, Repr

structure Doc2 where
  lds : List (List Ld2Cand)
  metas : List (Option String)
  domRaws : List (Option String)
deriving DecidableEq, Repr

/-- `tryOffers` of part_002: `price` first, then `lowPrice`, each via
`parseInt` on the stripped digits, accepted when truthy. -/
def tryOffer (o : OfferObj) : Option Nat :=
  match o.price with
  | some s =>
    if 0 < digitsVal s then some (digitsVal s)
    else
      match o.lowPrice with
      | some s2 => if 0 < digitsVal s2 then some (digitsVal s2) else none
      | none => none
  | none =>
    match o.lowPrice with
    | some s2 => if 0 < digitsVal s2 then some (digitsVal s2) else none
    | none => none

/-- Scan an offers array for the first truthy value. -/
def offersScan : List OfferObj → Option Nat
  | [] => none
  | o :: rest =>
    match tryOffer o with
    | some v => some v
    | none => offersScan rest

/-- `pickPriceFromObj`: offers (array or single), then the object's own
`price` field. -/
def pickPrice (o : LdObj2) : Option Nat :=
  match offersScan o.offers with
  | some v => some v
  | none =>
    match o.price with
    | some s => if 0 < digitsVal s then some (digitsVal s) else none
    | none => none

/-- One candidate: the object itself, then its `@graph` nodes. -/
def cand2Price (c : Ld2Cand) : Option Nat :=
  match pickPrice c.obj with
  | some v => some v
  | none =>
    match (c.graph.map pickPrice).reduceOption.head? with
    | some v => some v
    | none => none

/-- All scripts, all candidates, in document order. -/
def ld2Price (lds : List (List Ld2Cand)) : Option Nat :=
  ((lds.map (fun s => (s.map cand2Price).reduceOption.head?)).reduceOption).head?

/-- The meta-selector loop of part_002. -/
def metasPrice : List (Option String) → Option Nat
  | [] => none
  | none :: rest => metasPrice rest
  | some c :: rest =>
    if 0 < digitsVal c then some (digitsVal c) else metasPrice rest

/-- The DOM fallback loop of part_002: first selector text with a digit. -/
def domScan : List (Option String) → Option Nat
  | [] => none
  | none :: rest => domScan rest
  | some raw :: rest =>
    let cleaned := raw.data.filter Char.isDigit
    if cleaned.isEmpty then domScan rest else some (digitsToNat cleaned)

structure P2Out where
  price : Option Nat
  src : String
deriving DecidableEq, Repr

/-- `scrapePriceForListing` (part_002 305-431) as a pure function of the
fetch outcome: JSON-LD first, then meta tags, then the DOM fallback, else
the `none` tag; any error during the attempt yields the `error` tag. -/
def scrapePriceForListing (o : Except String Doc2) : P2Out :=
  match o with
  | Except.error _ => { price := none, src := ("error") }
  | Except.ok d =>
    match ld2Price d.lds with
    | some v => { price := some v, src := ("jsonld") }
    | none =>
      match metasPrice d.metas with
      | some v => { price := some v, src := ("meta") }
      | none =>
        match domScan d.domRaws with
        | some v => { price := some v, src := ("fallback") }
        | none => { price := none, src := ("none") }

/-! ## The spec-worded strategy chain (for the refinement comparison) -/

/-- Modelled from the spec wording of §4.4 step 2, for comparison with
`applyDetail`: machine-readable metadata first; if absent, the embedded
structured-data blocks; if absent, the free-text DOM price selectors
(the repo's DOM primitive: digits of the first selector text); if absent,
the visible-text scan for the on-request phrase.  This definition follows
the spec's words, not the source, and exists only to be compared with the
source-derived `applyDetail` and `scrapePriceForListing`. -/
def specPriceChain (d : DetailDoc) (it : Item) : Item :=
  match metaPriceVal d.metaContent with
  | some v => { it with price := some v, priceSource := PriceSource.detailMeta }
  | none =>
    match ldsPrice d.lds with
    | some v => { it with price := some v, priceSource := PriceSource.detailJsonld }
    | none =>
      match d.domRaw with
      | some raw =>
        let cleaned := raw.data.filter Char.isDigit
        if !cleaned.isEmpty then
          { it with price := some (digitsToNat cleaned), priceSource := PriceSource.detailDom }
        else if onReqText d.bodyText then
          { it with price := none, priceSource := PriceSource.onRequest }
        else { it with priceSource := PriceSource.missing }
      | none =>
        if onReqText d.bodyText then
          { it with price := none, priceSource := PriceSource.onRequest }
        else { it with priceSource := PriceSource.missing }

/-! ## The inline concurrency limiter (`src/server.js` 46-70)

`createLimiter` is a closure over `active` (a counter) and `queue` (an
array of jobs); the two events of the event loop that touch this state are
a submission (`limit(fn)`: push, then `runNext`) and the settlement of a
running job (`finally`: decrement, then `runNext`).  `runNext` starts the
head of the queue when a slot is free.  The state is embedded with jobs as
tokens, keeping also the list of settled jobs. -/

structure LimSt where
  limit : Nat
  active : List Nat
  queued : List Nat
  done : List Nat
deriving DecidableEq, Repr

/-- `runNext`: return if `active >= concurrency`, else shift the queue and
start the job (the started job joins the in-flight list). -/
def limRunNext (s : LimSt) : LimSt :=
  if s.limit ≤ s.active.length then s
  else
    match s.queued with
    | [] => s
    | j :: q => { s with active := s.active ++ [j], queued := q }

/-- The submission event: `queue.push({fn, ...}); runNext()`. -/
def limSubmit (j : Nat) (s : LimSt) : LimSt :=
  limRunNext { s with queued := s.queued ++ [j] }

/-- The settlement event of an in-flight job: `active--; runNext()`. -/
def limFinish (j : Nat) (s : LimSt) : LimSt :=
  limRunNext { s with active := s.active.erase j, done := s.done ++ [j] }

/-- The state of a freshly created limiter. -/
def limInit (c : Nat) : LimSt :=
  { limit := c, active := [], queued := [], done := [] }

/-- The states a limiter can reach: any interleaving of submissions and
settlements of in-flight jobs. -/
inductive LimReach : LimSt → Prop where
  | start (c : Nat) : LimReach (limInit c)
  | step_submit {s : LimSt} (j : Nat) : LimReach s → LimReach (limSubmit j s)
  | step_finish {s : LimSt} (j : Nat) : j ∈ s.active → LimReach s → LimReach (limFinish j s)

/-- The inductive invariant of the limiter state. -/
def LimInv (s : LimSt) : Prop :=
  s.active.length ≤ s.limit ∧ (s.queued = [] ∨ s.active.length = s.limit)

/-- The fair schedule that settles the oldest in-flight job. -/
def limStep (s : LimSt) : LimSt :=
  match s.active with
  | [] => s
  | j :: _ => limFinish j s

/-- Run `n` settlement events. -/
def limDrain : Nat → LimSt → LimSt
  | 0, s => s
  | n + 1, s => limDrain n (limStep s)

/-- Jobs submitted but not yet settled. -/
def pendCount (s : LimSt) : Nat := s.queued.length + s.active.length

/-! ## Limiter lemmas -/

theorem limRunNext_limit (s : LimSt) : (limRunNext s).limit = s.limit := by
  unfold limRunNext
  split
  · rfl
  · split <;> rfl

theorem limRunNext_done (s : LimSt) : (limRunNext s).done = s.done := by
  unfold limRunNext
  split
  · rfl
  · split <;> rfl

theorem limRunNext_of_full {s : LimSt} (h : s.limit ≤ s.active.length) : limRunNext s = s := by
  unfold limRunNext
  rw [if_pos h]

theorem limRunNext_of_nilq {s : LimSt} (h : ¬s.limit ≤ s.active.length)
    (hq : s.queued = []) : limRunNext s = s := by
  unfold limRunNext
  rw [if_neg h, hq]

theorem limRunNext_of_cons {s : LimSt} (h : ¬s.limit ≤ s.active.length) {j : Nat}
    {q : List Nat} (hq : s.queued = j :: q) :
    limRunNext s = { s with active := s.active ++ [j], queued := q } := by
  unfold limRunNext
  rw [if_neg h, hq]

theorem pend_limRunNext (s : LimSt) : pendCount (limRunNext s) = pendCount s := by
  by_cases hc : s.limit ≤ s.active.length
  · rw [limRunNext_of_full hc]
  · cases hq : s.queued with
    | nil => rw [limRunNext_of_nilq hc hq]
    | cons j q =>
      rw [limRunNext_of_cons hc hq]
      show q.length + (s.active ++ [j]).length = s.queued.length + s.active.length
      rw [hq]
      simp only [List.length_append, List.length_cons, List.length_nil]
      omega

theorem mem_limRunNext {k : Nat} {s : LimSt} (h : k ∈ s.queued ++ s.active) :
    k ∈ (limRunNext s).queued ++ (limRunNext s).active := by
  unfold limRunNext
  split
  · exact h
  · split
    · exact h
    · rename_i heq
      simp only [List.mem_append] at h ⊢
      rw [heq] at h
      simp only [List.mem_cons] at h
      rcases h with (rfl | hq) | ha
      · right
        simp
      · left
        exact hq
      · right
        simp [ha]

theorem limInv_init (c : Nat) : LimInv (limInit c) := by
  refine ⟨by simp [limInit], Or.inl rfl⟩

theorem limInv_submit (j : Nat) {s : LimSt} (h : LimInv s) : LimInv (limSubmit j s) := by
  obtain ⟨h1, h2⟩ := h
  unfold limSubmit
  by_cases hc : s.limit ≤ s.active.length
  · rw [limRunNext_of_full (s := { s with queued := s.queued ++ [j] }) hc]
    exact ⟨h1, Or.inr (Nat.le_antisymm h1 hc)⟩
  · have hq : s.queued = [] := by
      rcases h2 with hq | hl
      · exact hq
      · exact absurd hl.ge hc
    rw [limRunNext_of_cons (s := { s with queued := s.queued ++ [j] }) hc
      (show s.queued ++ [j] = j :: [] by rw [hq]; rfl)]
    refine ⟨?_, Or.inl rfl⟩
    show (s.active ++ [j]).length ≤ s.limit
    simp only [List.length_append, List.length_cons, List.length_nil]
    omega

theorem limInv_finish (j : Nat) {s : LimSt} (hj : j ∈ s.active) (h : LimInv s) :
    LimInv (limFinish j s) := by
  obtain ⟨h1, h2⟩ := h
  have hlen : (s.active.erase j).length = s.active.length - 1 :=
    List.length_erase_of_mem hj
  have hpos : 1 ≤ s.active.length := List.length_pos.mpr (List.ne_nil_of_mem hj)
  have hc : ¬s.limit ≤ (s.active.erase j).length := by omega
  cases hq : s.queued with
  | nil =>
    unfold limFinish
    rw [limRunNext_of_nilq (s := { s with active := s.active.erase j, done := s.done ++ [j] })
      hc hq]
    refine ⟨?_, Or.inl hq⟩
    show (s.active.erase j).length ≤ s.limit
    omega
  | cons j2 q2 =>
    have hl : s.active.length = s.limit := by
      rcases h2 with hq2 | hl
      · rw [hq2] at hq
        simp at hq
      · exact hl
    unfold limFinish
    rw [limRunNext_of_cons (s := { s with active := s.active.erase j, done := s.done ++ [j] })
      hc hq]
    refine ⟨?_, Or.inr ?_⟩
    · show (s.active.erase j ++ [j2]).length ≤ s.limit
      simp only [List.length_append, List.length_cons, List.length_nil]
      omega
    · show (s.active.erase j ++ [j2]).length = s.limit
      simp only [List.length_append, List.length_cons, List.length_nil]
      omega

theorem limReach_inv {s : LimSt} (h : LimReach s) : LimInv s := by
  induction h with
  | start c => exact limInv_init c
  | step_submit j _ ih => exact limInv_submit j ih
  | step_finish j hj _ ih => exact limInv_finish j hj ih

theorem limFinish_limit (j : Nat) (s : LimSt) : (limFinish j s).limit = s.limit := by
  unfold limFinish
  rw [limRunNext_limit]

theorem limStep_limit (s : LimSt) : (limStep s).limit = s.limit := by
  unfold limStep
  split
  · rfl
  · rw [limFinish_limit]

theorem pend_limStep {s : LimSt} (h : s.active ≠ []) :
    pendCount (limStep s) + 1 = pendCount s := by
  unfold limStep
  split
  · rename_i heq
    exact absurd heq h
  · rename_i j rest heq
    unfold limFinish
    rw [pend_limRunNext]
    unfold pendCount
    simp only [heq, List.erase_cons_head, List.length_cons]
    omega

theorem limInv_limStep {s : LimSt} (h : LimInv s) : LimInv (limStep s) := by
  unfold limStep
  split
  · exact h
  · rename_i j rest heq
    exact limInv_finish j (by rw [heq]; exact List.mem_cons_self j rest) h

theorem done_sub_limStep {s : LimSt} {x : Nat} (hx : x ∈ s.done) : x ∈ (limStep s).done := by
  unfold limStep
  split
  · exact hx
  · unfold limFinish
    rw [limRunNext_done]
    simp [hx]

theorem done_sub_limDrain (n : Nat) : ∀ (s : LimSt) (x : Nat),
    x ∈ s.done → x ∈ (limDrain n s).done := by
  induction n with
  | zero => exact fun s x hx => hx
  | succ n ih =>
    intro s x hx
    simp only [limDrain]
    exact ih (limStep s) x (done_sub_limStep hx)

theorem mem_limStep {k : Nat} {s : LimSt} (h : k ∈ s.queued ++ s.active) :
    k ∈ (limStep s).queued ++ (limStep s).active ∨ k ∈ (limStep s).done := by
  unfold limStep
  split
  · exact Or.inl h
  · rename_i j rest heq
    unfold limFinish
    by_cases hkj : k = j
    · right
      rw [limRunNext_done]
      simp [hkj]
    · left
      apply mem_limRunNext
      simp only [List.mem_append] at h ⊢
      rw [heq] at h
      simp only [heq, List.erase_cons_head]
      rcases h with hq | ha
      · exact Or.inl hq
      · simp only [List.mem_cons] at ha
        rcases ha with rfl | hr
        · exact absurd rfl hkj
        · exact Or.inr hr

theorem limDrain_complete : ∀ (n : Nat) (s : LimSt), LimInv s → 1 ≤ s.limit →
    pendCount s = n →
    (limDrain n s).queued = [] ∧ (limDrain n s).active = [] ∧
      ∀ k ∈ s.queued ++ s.active, k ∈ (limDrain n s).done := by
  intro n
  induction n with
  | zero =>
    intro s hinv hlim hp
    unfold pendCount at hp
    have hq : s.queued = [] := List.length_eq_zero.mp (by omega)
    have ha : s.active = [] := List.length_eq_zero.mp (by omega)
    refine ⟨hq, ha, ?_⟩
    intro k hk
    rw [hq, ha] at hk
    simp at hk
  | succ n ih =>
    intro s hinv hlim hp
    have hane : s.active ≠ [] := by
      intro hnil
      rcases hinv.2 with hq | hl
      · unfold pendCount at hp
        rw [hq, hnil] at hp
        simp at hp
      · rw [hnil] at hl
        simp at hl
        omega
    have hp2 : pendCount (limStep s) = n := by
      have := pend_limStep hane
      omega
    have H := ih (limStep s) (limInv_limStep hinv) (by rw [limStep_limit]; exact hlim) hp2
    refine ⟨by simpa [limDrain] using H.1, by simpa [limDrain] using H.2.1, ?_⟩
    intro k hk
    rcases mem_limStep hk with h1 | h2
    · simpa [limDrain] using H.2.2 k h1
    · simpa [limDrain] using done_sub_limDrain n (limStep s) k h2

/-- C7: in every reachable limiter state at most `limit` jobs are in
flight, and (for a positive limit) once the in-flight jobs are settled,
every job that was queued or in flight ends settled — no queued job is
dropped, every one is eventually started. -/
theorem c7_limiter : ∀ s : LimSt, LimReach s →
    s.active.length ≤ s.limit ∧
    (1 ≤ s.limit → ∀ k ∈ s.queued ++ s.active, k ∈ (limDrain (pendCount s) s).done) := by
  intro s hs
  have hinv := limReach_inv hs
  refine ⟨hinv.1, fun hlim => ?_⟩
  exact (limDrain_complete (pendCount s) s hinv hlim rfl).2.2

/-- Ten-ish jobs submitted against a limiter of size 3: three run, the
rest queue. -/
def limEx : LimSt :=
  limSubmit 13 (limSubmit 12 (limSubmit 11 (limSubmit 10 (limInit 3))))

theorem c7_limiter_witness :
    limEx.active.length ≤ limEx.limit ∧
      13 ∈ (limDrain (pendCount limEx) limEx).done := by
  have h := c7_limiter limEx
    (LimReach.step_submit 13 (LimReach.step_submit 12 (LimReach.step_submit 11
      (LimReach.step_submit 10 (LimReach.start 3)))))
  exact ⟨h.1, h.2 (by decide) 13 (by decide)⟩

/-! ## C10: the `> 100` guard of the card DOM price path -/

theorem pickIfBig_gt : ∀ (m : Option (List Char)) (v : Nat), pickIfBig m = some v → 100 < v := by
  intro m v h
  unfold pickIfBig at h
  split at h
  · simp at h
  · split at h
    · simp at h
    · split at h
      · rename_i hgt
        injection h with h2
        omega
      · simp at h

theorem parseEuroFromText_gt {s : String} {v : Nat} (h : parseEuroFromText s = some v) :
    100 < v := by
  simp only [parseEuroFromText] at h
  split at h
  · rename_i heq
    injection h with h2
    exact h2 ▸ pickIfBig_gt _ _ heq
  · split at h
    · rename_i heq
      injection h with h2
      exact h2 ▸ pickIfBig_gt _ _ heq
    · exact pickIfBig_gt _ _ h

theorem scanSel_cardDom : ∀ (ts : List (Option String)) (r : Option Nat × PriceSource),
    scanSel ts = some r → r.2 = PriceSource.cardDom →
    ∃ v, r.1 = some v ∧ 100 < v := by
  intro ts
  induction ts with
  | nil =>
    intro r h
    simp [scanSel] at h
  | cons hd rest ih =>
    intro r h hdom
    cases hd with
    | none =>
      simp only [scanSel] at h
      exact ih r h hdom
    | some t =>
      simp only [scanSel] at h
      split at h
      · exact ih r h hdom
      · split at h
        · exact ih r h hdom
        · split at h
          · injection h with h2
            rw [← h2] at hdom
            simp at hdom
          · split at h
            · rename_i v hv
              split at h
              · exact ih r h hdom
              · injection h with h2
                refine ⟨v, ?_, parseEuroFromText_gt hv⟩
                rw [← h2]
            · exact ih r h hdom

theorem extractPriceFromCard_cardDom (c : Card) :
    (extractPriceFromCard c).2 = PriceSource.cardDom →
    ∃ v, (extractPriceFromCard c).1 = some v ∧ 100 < v := by
  unfold extractPriceFromCard
  split
  · intro h
    simp at h
  · split
    · intro h
      simp at h
    · split
      · rename_i r hscan
        intro hdom
        exact scanSel_cardDom _ r hscan hdom
      · intro h
        simp at h

/-- C10: `parseEuroFromText` returns `none` or an integer strictly greater
than 100, and consequently every `card-dom` record carries a price above
100 — a displayed card price of 100 or less is never extracted by the
free-text DOM path. -/
theorem c10_parse_euro : ∀ (s : String) (c : Card),
    (parseEuroFromText s = none ∨ ∃ v, parseEuroFromText s = some v ∧ 100 < v) ∧
    ((extractPriceFromCard c).2 = PriceSource.cardDom →
      ∃ v, (extractPriceFromCard c).1 = some v ∧ 100 < v) := by
  intro s c
  constructor
  · cases hp : parseEuroFromText s with
    | none => exact Or.inl rfl
    | some v => exact Or.inr ⟨v, rfl, parseEuroFromText_gt hp⟩
  · exact extractPriceFromCard_cardDom c

/-- A card whose only price information is the DOM text `5 200 €`. -/
def cDomCard : Card :=
  { metaContent := none, innerText := ("Rolex Daytona"), selTexts := [some ("5 200 €")] }

theorem c10_parse_euro_witness :
    ∃ v, (extractPriceFromCard cDomCard).1 = some v ∧ 100 < v :=
  (c10_parse_euro ("5 200 €") cDomCard).2 (by decide)

/-! ## C4: the price/priceSource invariant -/

/-- The provenance tags that go with a null price (spec §3). -/
def nullSources : List PriceSource :=
  [PriceSource.onRequest, PriceSource.missing, PriceSource.detailTimeout,
   PriceSource.detailError]

/-- The record-level invariant. -/
def priceInv (it : Item) : Prop := it.price = none ↔ it.priceSource ∈ nullSources

theorem scanSel_inv : ∀ (ts : List (Option String)) (r : Option Nat × PriceSource),
    scanSel ts = some r → (r.1 = none ↔ r.2 ∈ nullSources) := by
  intro ts
  induction ts with
  | nil =>
    intro r h
    simp [scanSel] at h
  | cons hd rest ih =>
    intro r h
    cases hd with
    | none =>
      simp only [scanSel] at h
      exact ih r h
    | some t =>
      simp only [scanSel] at h
      split at h
      · exact ih r h
      · split at h
        · exact ih r h
        · split at h
          · injection h with h2
            rw [← h2]
            simp [nullSources]
          · split at h
            · split at h
              · exact ih r h
              · injection h with h2
                rw [← h2]
                simp [nullSources]
            · exact ih r h

theorem extractPriceFromCard_inv (c : Card) :
    ((extractPriceFromCard c).1 = none ↔ (extractPriceFromCard c).2 ∈ nullSources) := by
  unfold extractPriceFromCard
  split
  · simp [nullSources]
  · split
    · simp [nullSources]
    · split
      · rename_i r hscan
        exact scanSel_inv _ r hscan
      · simp [nullSources]

theorem buildItems_inv (pg : RawPage) :
    ∀ (hrefs seen : List String) (it : Item), it ∈ buildItems pg hrefs seen → priceInv it := by
  intro hrefs
  induction hrefs with
  | nil =>
    intro seen it h
    simp [buildItems] at h
  | cons href rest ih =>
    intro seen it h
    simp only [buildItems] at h
    split at h
    · exact ih seen it h
    · split at h
      · exact ih seen it h
      · rename_i id hid hseen
        simp only [List.mem_cons] at h
        rcases h with rfl | h2
        · exact extractPriceFromCard_inv (pg.card href)
        · exact ih _ it h2

theorem buildPage_inv (pg : RawPage) (ls : List LinkInfo) :
    ∀ it ∈ (buildPage pg ls).items, priceInv it := by
  intro it h
  simp only [buildPage] at h
  split at h
  · simp at h
  · exact buildItems_inv pg _ [] it h

theorem scrapeOnePage_inv (pg : RawPage) :
    ∀ it ∈ (scrapeOnePage pg).items, priceInv it := by
  intro it h
  simp only [scrapeOnePage] at h
  split at h
  · exact buildPage_inv pg _ it h
  · split at h
    · exact buildPage_inv pg _ it h
    · simp at h

theorem mem_upsert {l : List Item} {x y : Item} (h : y ∈ upsert l x) : y ∈ l ∨ y = x := by
  unfold upsert at h
  split at h
  · simp only [List.mem_map] at h
    obtain ⟨z, hz, hy⟩ := h
    by_cases hid : z.id = x.id
    · rw [if_pos hid] at hy
      exact Or.inr hy.symm
    · rw [if_neg hid] at hy
      exact Or.inl (hy ▸ hz)
  · simp only [List.mem_append, List.mem_singleton] at h
    rcases h with h1 | h1
    · exact Or.inl h1
    · exact Or.inr h1

theorem mem_mergeAll : ∀ (xs acc : List Item) (y : Item),
    y ∈ mergeAll acc xs → y ∈ acc ∨ y ∈ xs := by
  intro xs
  induction xs with
  | nil =>
    intro acc y h
    exact Or.inl h
  | cons x rest ih =>
    intro acc y h
    unfold mergeAll at h
    simp only [List.foldl_cons] at h
    rcases ih (upsert acc x) y h with h1 | h1
    · rcases mem_upsert h1 with h2 | h2
      · exact Or.inl h2
      · exact Or.inr (by simp [h2])
    · exact Or.inr (by simp [h1])

theorem walkLoop_inv (fetch : Nat → RawPage) :
    ∀ (ps : List Nat) (st : List Item × Nat), (∀ it ∈ st.1, priceInv it) →
      ∀ it ∈ (walkLoop fetch ps st).1, priceInv it := by
  intro ps
  induction ps with
  | nil =>
    intro st hst it h
    exact hst it h
  | cons p rest ih =>
    intro st hst it h
    simp only [walkLoop] at h
    refine ih _ ?_ it h
    intro y hy
    rcases mem_mergeAll _ _ y hy with h1 | h1
    · exact hst y h1
    · exact scrapeOnePage_inv (fetch p) y h1

theorem walkPhase_inv (fetch : Nat → RawPage) (pageSize maxPages : Nat) :
    ∀ it ∈ (walkPhase fetch pageSize maxPages).1, priceInv it := by
  intro it h
  simp only [walkPhase] at h
  refine walkLoop_inv fetch _ _ ?_ it h
  intro y hy
  rcases mem_mergeAll _ _ y hy with h1 | h1
  · simp at h1
  · exact scrapeOnePage_inv (fetch 1) y h1

theorem applyDetail_inv {d : DetailDoc} {it : Item} (hp : it.price = none) :
    priceInv (applyDetail d it) := by
  unfold applyDetail priceInv
  split
  · simp [nullSources]
  · split
    · simp [nullSources]
    · split
      · simp [nullSources]
      · simp [nullSources, hp]

theorem enrichItem_inv {env : String → FetchOutcome × FetchOutcome} {it : Item}
    (hp : it.price = none) : priceInv (enrichItem env it) := by
  unfold enrichItem enrichFromDetail
  split
  · exact applyDetail_inv hp
  · split
    · split
      · exact applyDetail_inv hp
      · simp [priceInv, nullSources]
    · simp [priceInv, nullSources]

theorem enrichAll_inv (env : String → FetchOutcome × FetchOutcome) (l : List Item)
    (hl : ∀ it ∈ l, priceInv it) : ∀ it ∈ enrichAll env l, priceInv it := by
  intro it h
  unfold enrichAll at h
  simp only [List.mem_map] at h
  obtain ⟨z, hz, hit⟩ := h
  by_cases hm : z.priceSource = PriceSource.missing
  · rw [if_pos hm] at hit
    have hp : z.price = none := (hl z hz).mpr (by simp [hm, nullSources])
    exact hit ▸ enrichItem_inv hp
  · rw [if_neg hm] at hit
    exact hit ▸ hl z hz

theorem resultItems_gatePhase (expected : Option Nat) (l : List Item)
    (pagesScraped pageSize : Nat) :
    ∀ it ∈ resultItems (gatePhase expected l pagesScraped pageSize), it ∈ l := by
  intro it h
  unfold gatePhase at h
  split at h
  · split at h
    · simp only [resultItems] at h
      exact List.mem_of_mem_take h
    · simpa [resultItems] using h
  · simpa [resultItems] using h

/-- C4: every record in any output of the pipeline — the items of a
successful result as well as the diagnostic sample of the hard failure —
has `price = none` exactly when its `priceSource` is one of
`on-request`, `missing`, `detail-timeout`, `detail-error` (equivalently,
a non-null price exactly for the successful tags). -/
theorem c4_price_source_invariant :
    ∀ (fetch : Nat → RawPage) (env : String → FetchOutcome × FetchOutcome)
      (psOpt mpOpt : Nat) (it : Item),
      it ∈ resultItems (scrapeChrono24Model fetch env psOpt mpOpt) →
      (it.price = none ↔ it.priceSource ∈ nullSources) := by
  intro fetch env psOpt mpOpt it h
  simp only [scrapeChrono24Model] at h
  have h2 := resultItems_gatePhase _ _ _ _ it h
  exact enrichAll_inv env _ (fun y hy => walkPhase_inv fetch _ _ y hy) it h2

/-- A page with one in-main listing link and no card price. -/
def c4Card : Card := { metaContent := none, innerText := ("Rolex"), selTexts := [] }

def c4Page : RawPage :=
  { links := [{ href := ("/a--id7.htm"), inMain := true }]
    expected := some 1
    card := fun _ => c4Card
    cardTitle := fun _ => none
    cardCountry := fun _ => none
    cardSponsored := fun _ => false }

def c4Fetch : Nat → RawPage := fun _ => c4Page

/-- Both detail attempts time out. -/
def c4Env : String → FetchOutcome × FetchOutcome :=
  fun _ => (FetchOutcome.err ("Timeout 90000ms exceeded"),
    FetchOutcome.err ("Timeout 90000ms exceeded"))

/-- The record the pipeline produces on that input. -/
def c4Item : Item :=
  { id := ("7"), url := ("https://www.chrono24.fr/a--id7.htm"), title := ("Listing 7"),
    country := none, isSponsored := false, price := none,
    priceSource := PriceSource.detailTimeout }

theorem c4_price_source_invariant_witness :
    c4Item.price = none ↔ c4Item.priceSource ∈ nullSources :=
  c4_price_source_invariant c4Fetch c4Env 1 1 c4Item (by decide)

/-! ## C5: the enrichment frame property -/

theorem applyDetail_id (d : DetailDoc) (it : Item) : (applyDetail d it).id = it.id := by
  unfold applyDetail
  split
  · rfl
  · split
    · rfl
    · split <;> rfl

theorem enrichFromDetail_id (o1 o2 : FetchOutcome) (rb : Nat) (it : Item) :
    (enrichFromDetail o1 o2 rb it).1.id = it.id := by
  unfold enrichFromDetail
  split
  · exact applyDetail_id _ _
  · split
    · split
      · exact applyDetail_id _ _
      · rfl
    · rfl

theorem enrichItem_id (env : String → FetchOutcome × FetchOutcome) (it : Item) :
    (enrichItem env it).id = it.id :=
  enrichFromDetail_id _ _ _ _

/-- C5: the Detail Enrichment Scheduler dispatches exactly the records
with `priceSource = missing`; the id sequence (hence membership, length
and positions) of the items array is unchanged, and every record that is
not selected — in particular every record with a card-derived price — is
left untouched at its position, whatever the fetch outcomes are. -/
theorem c5_enrichment_frame :
    ∀ (env : String → FetchOutcome × FetchOutcome) (l : List Item),
      ((enrichAll env l).map Item.id = l.map Item.id) ∧
      (∀ (i : Nat) (it : Item), l[i]? = some it → it.priceSource ≠ PriceSource.missing →
        (enrichAll env l)[i]? = some it) := by
  intro env l
  constructor
  · unfold enrichAll
    rw [List.map_map]
    apply List.map_congr_left
    intro a _
    by_cases hm : a.priceSource = PriceSource.missing
    · simp [Function.comp, hm, enrichItem_id]
    · simp [Function.comp, hm]
  · intro i it hget hmiss
    unfold enrichAll
    rw [List.getElem?_map, hget]
    simp [hmiss]

def c5Item : Item :=
  { id := ("9"), url := ("https://www.chrono24.fr/b--id9.htm"), title := ("Omega"),
    country := some ("FR"), isSponsored := false, price := some 4500,
    priceSource := PriceSource.cardMeta }

def c5Env : String → FetchOutcome × FetchOutcome :=
  fun _ => (FetchOutcome.err ("net::ERR_FAILED"), FetchOutcome.err ("net::ERR_FAILED"))

theorem c5_enrichment_frame_witness :
    ((enrichAll c5Env [c5Item]).map Item.id = [c5Item].map Item.id) ∧
      (enrichAll c5Env [c5Item])[0]? = some c5Item :=
  ⟨(c5_enrichment_frame c5Env [c5Item]).1,
    (c5_enrichment_frame c5Env [c5Item]).2 0 c5Item (by decide) (by decide)⟩

/-! ## C6: the timeout retry policy -/

/-- C6: with the retry budget of `CONFIG.detailRetryCount = 1`, a
Timeout-class failure of the first attempt triggers exactly one retry;
when the retry also times out the record ends `detail-timeout` with a
null price after exactly two attempts; a non-timeout first failure ends
`detail-error` with a null price after a single attempt (no retry); and
no outcome pair ever takes a third attempt — every failure is absorbed
into the record, none propagates. -/
theorem c6_retry_policy :
    ∀ (m1 m2 : String) (o1 o2 : FetchOutcome) (it : Item),
      (isTimeoutMsg m1 = true → isTimeoutMsg m2 = true →
        enrichFromDetail (FetchOutcome.err m1) (FetchOutcome.err m2) detailRetryCount it =
          ({ it with price := none, priceSource := PriceSource.detailTimeout }, 2)) ∧
      (isTimeoutMsg m1 = false →
        enrichFromDetail (FetchOutcome.err m1) o2 detailRetryCount it =
          ({ it with price := none, priceSource := PriceSource.detailError }, 1)) ∧
      (enrichFromDetail o1 o2 detailRetryCount it).2 ≤ 2 := by
  intro m1 m2 o1 o2 it
  refine ⟨?_, ?_, ?_⟩
  · intro h1 h2
    unfold enrichFromDetail detailRetryCount
    simp [h1]
  · intro h1
    unfold enrichFromDetail
    simp [h1]
  · unfold enrichFromDetail
    split
    · simp
    · split
      · split <;> simp
      · simp

def c6Item : Item :=
  { id := ("3"), url := ("https://www.chrono24.fr/c--id3.htm"), title := ("Listing 3"),
    country := none, isSponsored := false, price := none,
    priceSource := PriceSource.missing }

theorem c6_retry_policy_witness :
    enrichFromDetail (FetchOutcome.err ("page.goto: Timeout 90000ms exceeded"))
        (FetchOutcome.err ("page.goto: Timeout 90000ms exceeded")) detailRetryCount c6Item =
      ({ c6Item with price := none, priceSource := PriceSource.detailTimeout }, 2) ∧
    enrichFromDetail (FetchOutcome.err ("net::ERR_CONNECTION_REFUSED"))
        (FetchOutcome.ok { metaContent := none, lds := [], bodyText := (""), domRaw := none })
        detailRetryCount c6Item =
      ({ c6Item with price := none, priceSource := PriceSource.detailError }, 1) :=
  ⟨(c6_retry_policy ("page.goto: Timeout 90000ms exceeded")
      ("page.goto: Timeout 90000ms exceeded") (FetchOutcome.err ("x"))
      (FetchOutcome.err ("x")) c6Item).1 (by decide) (by decide),
    (c6_retry_policy ("net::ERR_CONNECTION_REFUSED") ("")
      (FetchOutcome.err ("x"))
      (FetchOutcome.ok { metaContent := none, lds := [], bodyText := (""), domRaw := none })
      c6Item).2.1 (by decide)⟩

/-! ## C3: the partial flag invariant of the list walker -/

def c3Page1 : RawListPage :=
  { links := [{ href := ("/x--id1.htm"), inMain := true, text := ("Rolex Submariner") }],
    expected := some 250 }

def c3Page2 : RawListPage :=
  { links := [{ href := ("/y--id2.htm"), inMain := true, text := ("Omega Speedmaster") }],
    expected := some 250 }

def c3Fetch : Nat → RawListPage := fun p => if p = 1 then c3Page1 else c3Page2

/-- What `scrapeList` returns on that source with `pageSize=100`,
`maxPages=2`. -/
def c3Result : ListResult :=
  { expectedCount := some 250
    count := 2
    pageSize := 100
    pagesScraped := 2
    totalPages := 3
    maxPages := 2
    partialFlag := true
    warning := some ("Partial: 2/3 pages")
    items :=
      [{ id := ("1"), url := ("https://www.chrono24.fr/x--id1.htm"),
         title := ("Rolex Submariner") },
       { id := ("2"), url := ("https://www.chrono24.fr/y--id2.htm"),
         title := ("Omega Speedmaster") }] }

deriving instance DecidableEq for Except

theorem warnIsSome (a b : Nat) (s : String) :
    (if a ≠ b then some s else none).isSome = decide (a ≠ b) := by
  by_cases h : a ≠ b
  · rw [if_pos h]
    simp [h]
  · rw [if_neg h]
    simp [h]

/-- C3: every `ScrapeResult` the walker returns satisfies
`partial == (pagesScraped != totalPages)` with the warning populated
exactly when partial; and on `expectedCount=250`, `pageSize=100`,
`maxPages=2` the result has `totalPagesNeeded=3`, `pagesScraped=2`,
`partial=true`. -/
theorem c3_partial_invariant :
    (∀ (fetch : Nat → RawListPage) (ps mp : Nat) (r : ListResult),
      scrapeList fetch ps mp = Except.ok r →
        (r.partialFlag = decide (r.pagesScraped ≠ r.totalPages)) ∧
        (r.warning.isSome = r.partialFlag)) ∧
    scrapeList c3Fetch 100 2 = Except.ok c3Result ∧
    c3Result.totalPages = 3 ∧ c3Result.pagesScraped = 2 ∧ c3Result.partialFlag = true := by
  refine ⟨?_, by decide, by decide, by decide, by decide⟩
  intro fetch ps mp r h
  simp only [scrapeList] at h
  split at h
  · exact absurd h (by simp)
  · split at h
    · exact absurd h (by simp)
    · injection h with h2
      subst h2
      exact ⟨rfl, warnIsSome _ _ _⟩

theorem c3_partial_invariant_witness :
    (c3Result.partialFlag = decide (c3Result.pagesScraped ≠ c3Result.totalPages)) ∧
      (c3Result.warning.isSome = c3Result.partialFlag) :=
  c3_partial_invariant.1 c3Fetch 100 2 c3Result c3_partial_invariant.2.1

/-! ## C1: the reconciliation gate of `scrapeChrono24` -/

/-- A three-listing source (expected count 3, one listing per page) that a
`maxPages=2` budget truncates. -/
def c1Card : Card := { metaContent := some ("5000"), innerText := ("Rolex"), selTexts := [] }

def c1Page1 : RawPage :=
  { links := [{ href := ("/a--id1.htm"), inMain := true }]
    expected := some 3
    card := fun _ => c1Card
    cardTitle := fun _ => none
    cardCountry := fun _ => none
    cardSponsored := fun _ => false }

def c1Page2 : RawPage :=
  { links := [{ href := ("/b--id2.htm"), inMain := true }]
    expected := some 3
    card := fun _ => c1Card
    cardTitle := fun _ => none
    cardCountry := fun _ => none
    cardSponsored := fun _ => false }

def c1Fetch : Nat → RawPage := fun p => if p = 1 then c1Page1 else c1Page2

def c1Env : String → FetchOutcome × FetchOutcome :=
  fun _ => (FetchOutcome.err (""), FetchOutcome.err (""))

def c1Item1 : Item :=
  { id := ("1"), url := ("https://www.chrono24.fr/a--id1.htm"), title := ("Listing 1"),
    country := none, isSponsored := false, price := some 5000,
    priceSource := PriceSource.cardMeta }

def c1Item2 : Item :=
  { id := ("2"), url := ("https://www.chrono24.fr/b--id2.htm"), title := ("Listing 2"),
    country := none, isSponsored := false, price := some 5000,
    priceSource := PriceSource.cardMeta }

def c1Meta : GateMeta :=
  { expectedCount := 3, got := 2, pagesScraped := 2, pageSize := 1,
    sample := [c1Item1, c1Item2] }

/-- C1 counterexample: with `expectedCount=3`, `pageSize=1`, `maxPages=2`
the walk is truncated by `maxPages` (`pagesScraped = 2 <
totalPagesNeeded = 3`, `items.length = 2 < 3`), yet the pipeline raises
the hard count-mismatch failure instead of returning a successful
`partial=true` result. -/
theorem c1_counterexample :
    scrapeChrono24Model c1Fetch c1Env 1 2 = Except.error c1Meta ∧
      c1Meta.pagesScraped < ceilDivNat c1Meta.expectedCount c1Meta.pageSize :=
  ⟨by decide, by decide⟩

theorem gatePhase_error {expected : Option Nat} {l : List Item} {p s : Nat} {m : GateMeta}
    (h : gatePhase expected l p s = Except.error m) :
    0 < m.expectedCount ∧ m.got ≠ m.expectedCount ∧ m.sample.length ≤ 5 := by
  unfold gatePhase at h
  split at h
  · split at h
    · rename_i hcond
      injection h with h2
      subst h2
      simp only [Bool.and_eq_true, decide_eq_true_eq] at hcond
      refine ⟨hcond.1, hcond.2, ?_⟩
      show (l.take 5).length ≤ 5
      simp [List.length_take]
    · simp at h
  · simp at h

theorem gatePhase_ok {expected : Option Nat} {l : List Item} {p s : Nat} {r : ScrapeOk}
    (h : gatePhase expected l p s = Except.ok r) :
    ∀ e, r.expected = some e → 0 < e → r.count = e := by
  unfold gatePhase at h
  split at h
  · split at h
    · simp at h
    · rename_i hcond
      injection h with h2
      subst h2
      intro e he hpos
      have he2 : _ = e := Option.some.inj he
      subst he2
      simp only [Bool.and_eq_true, decide_eq_true_eq, not_and, Decidable.not_not] at hcond
      exact hcond hpos
  · injection h with h2
    subst h2
    intro e he
    simp at he

/-- C1 amended: `scrapeChrono24` raises the hard failure — carrying
`{expectedCount, got, pagesScraped, pageSize, sample = first 5 items}` —
exactly when the expected count is a positive number and the deduplicated
count differs from it, whether or not the walk was truncated by
`maxPages`; it has no partial-success path (the `partial=true`-with-
warning success exists only in the `scrapeList` walker, which has no
reconciliation gate).  On a successful return, a positive expected count
always equals the count. -/
theorem c1_amended_gate :
    ∀ (fetch : Nat → RawPage) (env : String → FetchOutcome × FetchOutcome)
      (psOpt mpOpt : Nat),
      (∀ m, scrapeChrono24Model fetch env psOpt mpOpt = Except.error m →
        0 < m.expectedCount ∧ m.got ≠ m.expectedCount ∧ m.sample.length ≤ 5) ∧
      (∀ r, scrapeChrono24Model fetch env psOpt mpOpt = Except.ok r →
        ∀ e, r.expected = some e → 0 < e → r.count = e) := by
  intro fetch env psOpt mpOpt
  constructor
  · intro m h
    simp only [scrapeChrono24Model] at h
    exact gatePhase_error h
  · intro r h
    simp only [scrapeChrono24Model] at h
    exact gatePhase_ok h

theorem c1_amended_gate_witness :
    0 < c1Meta.expectedCount ∧ c1Meta.got ≠ c1Meta.expectedCount ∧
      c1Meta.sample.length ≤ 5 :=
  (c1_amended_gate c1Fetch c1Env 1 2).1 c1Meta (by decide)

/-! ## C2: the merge semantics of the id-keyed map -/

def c2Card : Card := { metaContent := some ("1000"), innerText := (""), selTexts := [] }

def c2Page1 : RawPage :=
  { links := [{ href := ("/a--id1.htm"), inMain := true }]
    expected := some 2
    card := fun _ => c2Card
    cardTitle := fun _ => some ("A")
    cardCountry := fun _ => none
    cardSponsored := fun _ => false }

def c2Page2 : RawPage :=
  { links := [{ href := ("/b--id1.htm"), inMain := true }]
    expected := some 2
    card := fun _ => c2Card
    cardTitle := fun _ => some ("B")
    cardCountry := fun _ => none
    cardSponsored := fun _ => false }

def c2Fetch : Nat → RawPage := fun p => if p = 1 then c2Page1 else c2Page2

/-- C2 counterexample: page 1 creates the id-1 record with title `A`;
page 2 carries the same id with title `B`, and after the walk the stored
record's fields are the later page's — `Map.set` overwrites, it is not
first-write-wins. -/
theorem c2_counterexample :
    ((scrapeOnePage (c2Fetch 1)).items.map Item.title = [("A")]) ∧
      ((walkPhase c2Fetch 1 2).1.map Item.title = [("B")]) :=
  ⟨by decide, by decide⟩

theorem map_id_upsert (l : List Item) (x : Item) :
    (upsert l x).map Item.id = l.map Item.id ∨
      (upsert l x).map Item.id = l.map Item.id ++ [x.id] := by
  unfold upsert
  split
  · left
    rw [List.map_map]
    apply List.map_congr_left
    intro a _
    by_cases hid : a.id = x.id
    · simp [Function.comp, hid]
    · simp [Function.comp, hid]
  · right
    simp

theorem ids_mergeAll : ∀ (xs acc : List Item) (i : String),
    i ∈ acc.map Item.id → i ∈ (mergeAll acc xs).map Item.id := by
  intro xs
  induction xs with
  | nil =>
    intro acc i h
    exact h
  | cons x rest ih =>
    intro acc i h
    show i ∈ (mergeAll (upsert acc x) rest).map Item.id
    apply ih
    rcases map_id_upsert acc x with he | he
    · rw [he]
      exact h
    · rw [he]
      exact List.mem_append.mpr (Or.inl h)

theorem upsert_overwrite {l : List Item} {x y : Item} (hid : x.id ∈ l.map Item.id)
    (hy : y ∈ upsert l x) (hyx : y.id = x.id) : y = x := by
  have hc : (l.any fun y2 => y2.id = x.id) = true := by
    simp only [List.any_eq_true]
    simp only [List.mem_map] at hid
    obtain ⟨z, hz, hzx⟩ := hid
    exact ⟨z, hz, by simp [hzx]⟩
  unfold upsert at hy
  rw [if_pos hc] at hy
  simp only [List.mem_map] at hy
  obtain ⟨z, hz, hzy⟩ := hy
  by_cases hzx : z.id = x.id
  · rw [if_pos hzx] at hzy
    exact hzy.symm
  · rw [if_neg hzx] at hzy
    exact absurd (hzy ▸ hyx) hzx

/-- C2 amended: the walk merge is last-write-wins per id, not
first-write-wins: merging later pages never removes an id already in the
map (membership by id is monotone, the superset property holds), but when
a later page carries an item whose id already exists the stored record
becomes that later item — its fields are overwritten in place. -/
theorem c2_amended_merge :
    ∀ (acc xs l : List Item) (x y : Item),
      (∀ i, i ∈ acc.map Item.id → i ∈ (mergeAll acc xs).map Item.id) ∧
      (x.id ∈ l.map Item.id → y ∈ upsert l x → y.id = x.id → y = x) := by
  intro acc xs l x y
  exact ⟨fun i h => ids_mergeAll xs acc i h, fun h1 h2 h3 => upsert_overwrite h1 h2 h3⟩

def c2ItemA : Item :=
  { id := ("1"), url := ("https://www.chrono24.fr/a--id1.htm"), title := ("A"),
    country := none, isSponsored := false, price := some 1000,
    priceSource := PriceSource.cardMeta }

def c2ItemB : Item :=
  { id := ("1"), url := ("https://www.chrono24.fr/b--id1.htm"), title := ("B"),
    country := none, isSponsored := false, price := some 1000,
    priceSource := PriceSource.cardMeta }

theorem c2_amended_merge_witness :
    (("1") ∈ (mergeAll [c2ItemA] [c2ItemB]).map Item.id) ∧ c2ItemB = c2ItemB :=
  ⟨(c2_amended_merge [c2ItemA] [c2ItemB] [c2ItemA] c2ItemB c2ItemB).1 ("1") (by decide),
    (c2_amended_merge [c2ItemA] [c2ItemB] [c2ItemA] c2ItemB c2ItemB).2 (by decide)
      (by decide) (by decide)⟩

/-! ## C8: the detail price strategy chain -/

/-- A detail page whose price appears only in the DOM price selectors. -/
def c8DocDom : DetailDoc :=
  { metaContent := none, lds := [], bodyText := ("Rolex GMT Master"),
    domRaw := some ("12 345 €") }

def c8Item : Item :=
  { id := ("5"), url := ("https://www.chrono24.fr/d--id5.htm"), title := ("Listing 5"),
    country := none, isSponsored := false, price := none,
    priceSource := PriceSource.missing }

/-- A detail document carrying both a meta price (111) and a JSON-LD
offer price (222). -/
def c8Offer : OfferObj := { price := some ("222"), lowPrice := none }

def c8LdObj2 : LdObj2 := { offers := [c8Offer], price := none }

def c8Cand : Ld2Cand := { obj := c8LdObj2, graph := [] }

def c8Doc2 : Doc2 :=
  { lds := [[c8Cand]],
    metas := [some ("111"), none, none],
    domRaws := [none, none, none, none] }

/-- C8 counterexample: `enrichFromDetail` has no DOM-selector stage — a
price visible only through the DOM selectors is left `missing`, while the
spec-worded chain would extract it as a DOM price; and the variant's
`scrapePriceForListing` tries JSON-LD before the machine-readable
metadata, so with both present the JSON-LD price wins, contradicting the
claimed metadata-first order. -/
theorem c8_counterexample :
    ((applyDetail c8DocDom c8Item).priceSource = PriceSource.missing ∧
      (applyDetail c8DocDom c8Item).price = none) ∧
    ((specPriceChain c8DocDom c8Item).priceSource = PriceSource.detailDom ∧
      (specPriceChain c8DocDom c8Item).price = some 12345) ∧
    scrapePriceForListing (Except.ok c8Doc2) = { price := some 222, src := ("jsonld") } :=
  ⟨⟨by decide, by decide⟩, ⟨by decide, by decide⟩, by decide⟩

/-- C8 amended: the first-success-wins order of `enrichFromDetail` is
metadata, then JSON-LD (array-wrapped and graph-nested), then the
on-request body scan — there is no DOM-selector stage, the DOM data is
never read; the variant's `scrapePriceForListing` order is JSON-LD, then
metadata, then the DOM selectors, with no on-request scan. -/
theorem c8_amended_chain :
    ∀ (d : DetailDoc) (it : Item) (d2 : Doc2),
      (applyDetail d it = applyDetail { d with domRaw := none } it) ∧
      (∀ v, metaPriceVal d.metaContent = some v →
        applyDetail d it = { it with price := some v, priceSource := PriceSource.detailMeta }) ∧
      (∀ v, metaPriceVal d.metaContent = none → ldsPrice d.lds = some v →
        applyDetail d it =
          { it with price := some v, priceSource := PriceSource.detailJsonld }) ∧
      (metaPriceVal d.metaContent = none → ldsPrice d.lds = none →
        applyDetail d it =
          (if onReqText d.bodyText then
            { it with price := none, priceSource := PriceSource.onRequest }
          else { it with priceSource := PriceSource.missing })) ∧
      (∀ v, ld2Price d2.lds = some v →
        scrapePriceForListing (Except.ok d2) = { price := some v, src := ("jsonld") }) ∧
      (∀ v, ld2Price d2.lds = none → metasPrice d2.metas = some v →
        scrapePriceForListing (Except.ok d2) = { price := some v, src := ("meta") }) := by
  intro d it d2
  refine ⟨rfl, ?_, ?_, ?_, ?_, ?_⟩
  · intro v h
    simp [applyDetail, h]
  · intro v h1 h2
    simp [applyDetail, h1, h2]
  · intro h1 h2
    simp [applyDetail, h1, h2]
  · intro v h
    simp [scrapePriceForListing, h]
  · intro v h1 h2
    simp [scrapePriceForListing, h1, h2]

def c8DocMeta : DetailDoc :=
  { metaContent := some ("777"), lds := [], bodyText := (""), domRaw := none }

theorem c8_amended_chain_witness :
    (applyDetail c8DocDom c8Item = applyDetail { c8DocDom with domRaw := none } c8Item) ∧
    applyDetail c8DocMeta c8Item =
      { c8Item with price := some 777, priceSource := PriceSource.detailMeta } ∧
    scrapePriceForListing (Except.ok c8Doc2) = { price := some 222, src := ("jsonld") } :=
  ⟨(c8_amended_chain c8DocDom c8Item c8Doc2).1,
    (c8_amended_chain c8DocMeta c8Item c8Doc2).2.1 777 (by decide),
    (c8_amended_chain c8DocDom c8Item c8Doc2).2.2.2.2.1 222 (by decide)⟩

/-! ## C9: empty pages -/

def c9EmptyList : RawListPage := { links := [], expected := none }

/-- C9 counterexample: in the walker variant (part_001), a page where no
listing link is found by either selector makes `scrapeListPage` reject —
only the primary-selector wait is guarded, the page-wide fallback wait is
not — instead of returning an empty-items result. -/
theorem c9_counterexample : (scrapeListPage c9EmptyList).isOk = false := by decide

def c9Card : Card := { metaContent := some ("900"), innerText := (""), selTexts := [] }

def c9Page1 : RawPage :=
  { links := [{ href := ("/a--id1.htm"), inMain := true }]
    expected := some 3
    card := fun _ => c9Card
    cardTitle := fun _ => none
    cardCountry := fun _ => none
    cardSponsored := fun _ => false }

def c9PageEmpty : RawPage :=
  { links := []
    expected := some 3
    card := fun _ => c9Card
    cardTitle := fun _ => none
    cardCountry := fun _ => none
    cardSponsored := fun _ => false }

def c9Page3 : RawPage :=
  { links := [{ href := ("/c--id3.htm"), inMain := true }]
    expected := some 3
    card := fun _ => c9Card
    cardTitle := fun _ => none
    cardCountry := fun _ => none
    cardSponsored := fun _ => false }

def c9Fetch : Nat → RawPage :=
  fun p => if p = 1 then c9Page1 else if p = 2 then c9PageEmpty else c9Page3

/-- C9 amended: in `scrapeOnePage` (server.js) the claim holds — a page
where neither selector finds a listing link yields
`{ expectedCount: 0, items: [] }`, not an error, and the Walker treats it
as zero contribution without terminating: with page 2 empty the walk
still reaches page 3 and merges its records.  Only the `scrapeListPage`
variant rejects on such a page. -/
theorem c9_amended_empty :
    (∀ pg : RawPage, anyLinks pg = [] →
      scrapeOnePage pg = { expected := some 0, items := [] }) ∧
    (walkPhase c9Fetch 1 3).2.1 = 3 ∧
    (("3") ∈ (walkPhase c9Fetch 1 3).1.map Item.id) ∧
    (("1") ∈ (walkPhase c9Fetch 1 3).1.map Item.id) := by
  refine ⟨?_, by decide, by decide, by decide⟩
  intro pg h
  have hm : mainLinks pg = [] := by
    unfold mainLinks
    unfold anyLinks at h
    rw [List.filter_eq_nil_iff] at h ⊢
    intro a ha
    have h2 := h a ha
    simp only [Bool.and_eq_true, not_and] at h2 ⊢
    intro _
    exact h2
  simp [scrapeOnePage, hm, h]

theorem c9_amended_empty_witness :
    scrapeOnePage c9PageEmpty = { expected := some 0, items := [] } :=
  c9_amended_empty.1 c9PageEmpty (by decide)
